import Mathlib

/-!
Verification of the tag-reconciliation engine of the docker-registry-platform
repository.  The definitions below are a shallow embedding of
`app/repositories/services/sync_service.py`, `app/repositories/clients/registry_client.py`,
`app/repositories/models.py` and `app/repositories/forms.py`.

The remote registry is modelled as a pure environment (`RegistryEnv`):
HTTP calls that may raise become `Except String` results.  The database is a
list of `(repository id, TagRow)` pairs; `django.db.transaction.atomic` plus
the synchronous control flow make every sync step a pure state transformer.
Timestamps (`timezone.now()`) are abstracted as a `Nat` supplied per run.
-/

/-- Equality of `Except` results is decidable componentwise (used to
evaluate the engine on concrete registries). -/
instance {α β : Type} [DecidableEq α] [DecidableEq β] :
    DecidableEq (Except α β) := fun x y =>
  match x, y with
  | .error a, .error b =>
    if h : a = b then .isTrue (h ▸ rfl)
    else .isFalse (fun he => h (Except.error.inj he))
  | .ok a, .ok b =>
    if h : a = b then .isTrue (h ▸ rfl)
    else .isFalse (fun he => h (Except.ok.inj he))
  | .error a, .ok b => .isFalse (fun he => Except.noConfusion he)
  | .ok a, .error b => .isFalse (fun he => Except.noConfusion he)

namespace Sync

/-- Per-tag metadata dictionary built by `SyncService._fetch_registry_tags`
(digest/size/os/arch/image_type).  `digest` is the
`Docker-Content-Digest` header, which `requests` reports as `None` when
absent, hence `Option String`. -/
structure TagData where
  digest : Option String
  size : Nat
  os : String
  arch : String
  image_type : String
  deriving Repr, DecidableEq

/-- A local `Tag` row, carrying exactly the fields the Django model
`repositories.models.Tag` declares besides the `repository` foreign key
(held in `DBState` as the repository id): `name`, `digest`, `size`,
`created_at`.  The engine's writes of `os`, `arch`, `image_type`,
`last_synced` never reach a persisted row: the model declares none of
them, so `Tag.objects.create(...)` raises `TypeError` and both
`save(update_fields=...)` calls raise `ValueError` (see
`tagModelFields`). -/
structure TagRow where
  name : String
  digest : String
  size : Nat
  created_at : Nat
  deriving Repr, DecidableEq

/-- The JSON manifest as returned by `RegistryClient.get_manifest`:
`digest` is set from the `Docker-Content-Digest` response header (possibly
absent), `size`, `os` and `arch` are always set by the client, and
`mediaType` comes straight from the manifest body, so it can be missing. -/
structure Manifest where
  digest : Option String
  size : Nat
  os : String
  arch : String
  mediaType : Option String
  deriving Repr, DecidableEq

/-- The remote registry together with the HTTP client, as a pure oracle.
`tags_for` models `RegistryClient.get_tags_for_repository` (raises on
connectivity errors), `manifest` models `RegistryClient.get_manifest`, and
`health` is the status the `/v2/` probe of `RegistryClient.check_health`
would report. -/
structure RegistryEnv where
  tags_for : String → Except String (List String)
  manifest : String → String → Except String Manifest
  health : Bool

/-- `RegistryClient.check_health`. -/
def check_health (env : RegistryEnv) : Bool := env.health

/-- The `tags` dict of `_fetch_registry_tags`, keyed by tag name. -/
abbrev RegistryTags := List (String × TagData)

/-- Python dict assignment `tags[tag_name] = v`: replace in place if the key
exists, otherwise append. -/
def dictInsert (m : RegistryTags) (k : String) (v : TagData) : RegistryTags :=
  if m.any (fun p => p.1 == k) then
    m.map (fun p => if p.1 == k then (k, v) else p)
  else m ++ [(k, v)]

/-- The key set of the registry-side dict (`registry_tags.keys()`). -/
def regKeys (m : RegistryTags) : List String := m.map (·.1)

/-- Python `str.split(sep)` for the one-character separator used by the
image-type extraction, computed on the string's character list: splitting
the empty string yields one empty component, and every occurrence of the
separator starts a new component. -/
def pySplitChar (sep : Char) : List Char → List (List Char)
  | [] => [[]]
  | c :: rest =>
    let r := pySplitChar sep rest
    if c = sep then [] :: r
    else
      match r with
      | [] => [[c]]
      | h :: t => (c :: h) :: t

/-- `manifest.get('mediaType', '').split('.')[-3]`: Python's negative index
`[-3]` succeeds exactly when the split has at least three components and
raises `IndexError` otherwise, modelled as `none`. -/
def image_type_of (mt : String) : Option String :=
  let parts := pySplitChar '.' mt.data
  if h : 3 ≤ parts.length then
    some (String.mk (parts.get ⟨parts.length - 3, by omega⟩))
  else none

/-- The body of the per-tag `try` block of `_fetch_registry_tags` after a
successful `get_manifest`: build the metadata dict entry, or `none` when the
image-type extraction raises `IndexError` (caught by the same handler as a
fetch failure). -/
def describeManifest (man : Manifest) : Option TagData :=
  match image_type_of (man.mediaType.getD "") with
  | some it => some ⟨man.digest, man.size, man.os, man.arch, it⟩
  | none => none

/-- One iteration of the tag loop in `_fetch_registry_tags`: a manifest
fetch failure or an `IndexError` is logged and skipped (`continue`),
otherwise the tag is added to the dict. -/
def fetchStep (env : RegistryEnv) (repo_name : String) (tags : RegistryTags)
    (tag_name : String) : RegistryTags :=
  match env.manifest repo_name tag_name with
  | .error _ => tags
  | .ok man =>
    match describeManifest man with
    | some d => dictInsert tags tag_name d
    | none => tags

/-- `SyncService._fetch_registry_tags`: propagate a tag-list failure,
otherwise fold the per-tag loop over the listed names starting from the
empty dict. -/
def fetchRegistryTags (env : RegistryEnv) (repo_name : String) :
    Except String RegistryTags :=
  match env.tags_for repo_name with
  | .error e => .error e
  | .ok tags_list => .ok (tags_list.foldl (fetchStep env repo_name) [])

/-- Representative text of the `TypeError` Django raises on the first
iteration of the new-tag loop: `Tag.objects.create(...)` passes the
keyword arguments `os`, `arch`, `image_type`, `last_synced`, none of
which is a declared field or settable property of `Tag`. -/
def tagCreateTypeError : String :=
  "TypeError: Tag() got unexpected keyword arguments: os, arch, image_type, last_synced"

/-- Representative text of the `ValueError` Django raises on the first
iteration of the common-tag loop: both branches call
`tag.save(update_fields=[...])` with entries (`last_synced`, and in the
digest-changed branch also `os`, `arch`, `image_type`) that are not
concrete fields of `Tag`.  Which branch raises first depends on Python's
set iteration order, so the text abstracts over the field list shown. -/
def tagSaveValueError : String :=
  "ValueError: save() update_fields contains fields that do not exist on the Tag model"

/-- The transaction's deleted-name set
`deleted_tag_names = existing_tag_names - registry_tag_names`, one entry
per distinct stored name. -/
def deletedNames (reg : RegistryTags) (rows : List TagRow) : List String :=
  ((rows.map TagRow.name).filter (fun n => !((regKeys reg).contains n))).dedup

/-- `SyncService._sync_tags_transaction` on the rows of one repository.
The create and update loops run only under `if registry_tags:`; the delete
loop always runs.  Because the declared model lacks the fields the engine
writes (`tagModelFields`), the first iteration of the new-tag loop raises
`TypeError` and the first iteration of the common-tag loop raises
`ValueError`.  Every key of a nonempty registry dict is either a new or a
common name, so the transaction completes only when the dict is empty:
then `created_count = updated_count = 0` and only the delete loop runs,
removing each stored name absent from the dict.  An exception aborts
`transaction.atomic`, so an error leaves the table untouched. -/
def syncTagsTransaction (now : Nat) (reg : RegistryTags) (rows : List TagRow) :
    Except String ((Nat × Nat × Nat) × List TagRow) :=
  let existing_names := rows.map (·.name)
  let newEntries := reg.filter (fun p => !(existing_names.contains p.1))
  let commonNames := (regKeys reg).filter (fun n => existing_names.contains n)
  if !reg.isEmpty && !newEntries.isEmpty then
    .error tagCreateTypeError
  else if !reg.isEmpty && !commonNames.isEmpty then
    .error tagSaveValueError
  else
    let keptRows := rows.filter (fun r => (regKeys reg).contains r.name)
    .ok ((0, 0, (deletedNames reg rows).length), keptRows)

/-- A local `Repository` row as the sync engine uses it: primary key and
name. -/
structure Repo where
  id : Nat
  name : String
  deriving Repr, DecidableEq

/-- The `Tag` table: each row belongs to a repository via its id. -/
abbrev DBState := List (Nat × TagRow)

/-- `Tag.objects.filter(repository=repo)`. -/
def rowsOf (db : DBState) (rid : Nat) : List TagRow :=
  (db.filter (fun p => p.1 == rid)).map (·.2)

/-- Replace the rows of one repository (the net effect of the create, save
and delete calls of a transaction, which touch only that repository's
rows). -/
def setRows (db : DBState) (rid : Nat) (rows : List TagRow) : DBState :=
  db.filter (fun p => p.1 != rid) ++ rows.map (fun r => (rid, r))

/-- `SyncStats`, the dataclass aggregating a batch outcome. -/
structure SyncStats where
  repos_processed : Nat := 0
  repos_skipped : Nat := 0
  tags_created : Nat := 0
  tags_updated : Nat := 0
  tags_deleted : Nat := 0
  errors : List String := []
  deriving Repr, DecidableEq

/-- Componentwise sum of two stats records (counts add, error lists
concatenate). -/
def addStats (a b : SyncStats) : SyncStats :=
  { repos_processed := a.repos_processed + b.repos_processed
    repos_skipped := a.repos_skipped + b.repos_skipped
    tags_created := a.tags_created + b.tags_created
    tags_updated := a.tags_updated + b.tags_updated
    tags_deleted := a.tags_deleted + b.tags_deleted
    errors := a.errors ++ b.errors }

/-- `SyncService.sync_repository_tags`: fetch (re-raising a tag-list
failure before any mutation), run the transaction inside
`transaction.atomic()` — an exception there is not caught, rolls the
table back and propagates — then add this repository's outcome to the
instance's `self.stats`.  On success, returns the
`(created, updated, deleted)` triple together with the new table state
and stats. -/
def syncRepositoryTags (env : RegistryEnv) (now : Nat) (repo : Repo)
    (db : DBState) (stats : SyncStats) :
    Except String ((Nat × Nat × Nat) × DBState × SyncStats) :=
  match fetchRegistryTags env repo.name with
  | .error e => .error e
  | .ok reg =>
    match syncTagsTransaction now reg (rowsOf db repo.id) with
    | .error e => .error e
    | .ok res =>
      .ok (res.1, setRows db repo.id res.2,
        { stats with
          repos_processed := stats.repos_processed + 1
          tags_created := stats.tags_created + res.1.1
          tags_updated := stats.tags_updated + res.1.2.1
          tags_deleted := stats.tags_deleted + res.1.2.2 })

/-- The error message recorded by `sync_all_tags` for a failed
repository. -/
def failMsg (n e : String) : String :=
  "Failed to sync repository " ++ n ++ ": " ++ e

/-- `SyncService.sync_all_tags`: iterate over all repository rows; an
exception from one repository is caught, its message appended to
`self.stats.errors` and `repos_skipped` incremented, and the loop
continues.  Returns `self.stats` (threaded, since the instance accumulates
it). -/
def syncAllTags (env : RegistryEnv) (now : Nat) (repos : List Repo)
    (db : DBState) (stats : SyncStats) : DBState × SyncStats :=
  match repos with
  | [] => (db, stats)
  | repo :: rest =>
    match syncRepositoryTags env now repo db stats with
    | .ok (_, db2, s2) => syncAllTags env now rest db2 s2
    | .error e =>
      syncAllTags env now rest db
        { stats with
          repos_skipped := stats.repos_skipped + 1
          errors := stats.errors ++ [failMsg repo.name e] }

/-- `SyncService.sync_repository_by_name`: `Repository.objects.get(name=...)`
then delegate; `DoesNotExist` propagates. -/
def syncRepositoryByName (env : RegistryEnv) (now : Nat) (repos : List Repo)
    (repo_name : String) (db : DBState) (stats : SyncStats) :
    Except String ((Nat × Nat × Nat) × DBState × SyncStats) :=
  match repos.find? (fun r => r.name == repo_name) with
  | some repo => syncRepositoryTags env now repo db stats
  | none => .error "Repository matching query does not exist."

/-- The batch path of the `sync_tags` management command (no `--repo`
argument): `Command.handle` builds a fresh `SyncService()` — hence
zero-initialised stats — and calls `sync_all_tags`; no other registry call
is made before it. -/
def commandSyncAll (env : RegistryEnv) (now : Nat) (repos : List Repo)
    (db : DBState) : DBState × SyncStats :=
  syncAllTags env now repos db {}

/-- The field names declared by the Django model `repositories.models.Tag`
(`name`, `digest`, `size`, `repository`, `created_at`) plus the implicit
auto primary key `id`. -/
def tagModelFields : List String :=
  ["id", "name", "digest", "size", "repository", "created_at"]

/-- The keyword arguments of the `Tag.objects.create(...)` call in the
new-tag branch of `_sync_tags_transaction`. -/
def syncCreateKwargs : List String :=
  ["repository", "name", "digest", "size", "os", "arch", "image_type",
   "last_synced"]

/-- The `update_fields` list of the digest-changed `tag.save(...)` call. -/
def syncUpdateFields : List String :=
  ["digest", "size", "os", "arch", "image_type", "last_synced"]

/-- The `update_fields` list of the heartbeat `tag.save(...)` call. -/
def heartbeatUpdateFields : List String := ["last_synced"]

/-- `django.db.models.Model.__init__` raises `TypeError` for every keyword
argument that is not a declared field; `Model.save` raises `ValueError`
for every `update_fields` entry that is not a concrete field.  This
computes the offending names. -/
def djangoRejectedKwargs (fields kwargs : List String) : List String :=
  kwargs.filter (fun k => !(fields.contains k))


/-- A tag whose per-tag processing hits the exception handler of
`_fetch_registry_tags`: either the manifest fetch raises, or building the
metadata entry raises `IndexError`. -/
def tagDropped (env : RegistryEnv) (nm t : String) : Prop :=
  match env.manifest nm t with
  | .error _ => True
  | .ok man => describeManifest man = none

/-- A concrete healthy registry used to witness the reconciliation
theorems: it lists tags `v1`, `v2` and serves a docker-v2 manifest for
every tag. -/
def envW : RegistryEnv :=
  { tags_for := fun _ => .ok ["v1", "v2"]
    manifest := fun _ t => .ok
      { digest := some (String.append "sha-" t)
        size := 3
        os := "linux"
        arch := "amd64"
        mediaType := some "application/vnd.docker.distribution.manifest.v2+json" }
    health := true }

/-- A pre-existing local tag row used in witnesses and counterexamples. -/
def sampleRow : TagRow :=
  { name := "stale"
    digest := "sha-old"
    size := 5
    created_at := 0 }

/-- Local rows named after the two tags `envW` serves, used to exhibit
the common-tag (heartbeat/overwrite) paths. -/
def rowV1 : TagRow :=
  { name := "v1", digest := "sha-v1", size := 3, created_at := 0 }

/-- See `rowV1`. -/
def rowV2 : TagRow :=
  { name := "v2", digest := "sha-v2", size := 3, created_at := 0 }

/-- A local row for `v1` whose stored digest differs from the digest
`envOne` serves, putting `v1` on the digest-changed update path. -/
def rowOld : TagRow :=
  { name := "v1", digest := "sha-OLD", size := 9, created_at := 0 }

/-- A registry serving exactly one tag `v1` with a docker-v2 manifest. -/
def envOne : RegistryEnv :=
  { tags_for := fun _ => .ok ["v1"]
    manifest := fun _ t => .ok
      { digest := some (String.append "sha-" t)
        size := 3
        os := "linux"
        arch := "amd64"
        mediaType := some "application/vnd.docker.distribution.manifest.v2+json" }
    health := true }

/-- An unreachable registry: every call raises and the health probe
reports failure. -/
def envDown : RegistryEnv :=
  { tags_for := fun _ => .error "connection refused"
    manifest := fun _ _ => .error "connection refused"
    health := false }

/-- A registry whose tag list mentions `stale` but whose manifest fetch
for it raises; the other tag `v1` is served normally. -/
def envFlaky : RegistryEnv :=
  { tags_for := fun _ => .ok ["v1", "stale"]
    manifest := fun _ t =>
      if t = "stale" then .error "manifest timeout"
      else .ok
        { digest := some (String.append "sha-" t)
          size := 3
          os := "linux"
          arch := "amd64"
          mediaType := some "application/vnd.oci.image.manifest.v1+json" }
    health := true }

/-- A registry that serves, for the tag `stale`, a manifest without any
`mediaType` key. -/
def envNoMedia : RegistryEnv :=
  { tags_for := fun _ => .ok ["stale"]
    manifest := fun _ _ => .ok
      { digest := some "sha-x"
        size := 3
        os := "linux"
        arch := "amd64"
        mediaType := none }
    health := true }

/-- A reachable registry whose health probe nevertheless reports failure:
the tag list is served (empty) while `/v2/` answers non-200. -/
def envUnhealthy : RegistryEnv :=
  { tags_for := fun _ => .ok []
    manifest := fun _ _ => .error "unreachable"
    health := false }

end Sync

namespace Repos

/-- `Repository.VisibilityChoices` (PUBLIC / PRIVATE). -/
inductive Visibility
  | pub
  | priv
  deriving Repr, DecidableEq

/-- A `Repository` row: auto primary key, `owner` foreign key and the
fields relevant to the uniqueness invariant. -/
structure RepoRow where
  pk : Nat
  owner : Nat
  name : String
  is_official : Bool
  visibility : Visibility
  description : String
  deriving Repr, DecidableEq

/-- One admissible character of `Repository.name_validator`
(`^[a-z0-9-]+$`). -/
def slugChar (c : Char) : Bool :=
  (decide ('a' ≤ c) && decide (c ≤ 'z')) || c.isDigit || c == '-'

/-- `Repository.name_validator`: nonempty, lowercase alphanumeric with
hyphens. -/
def validSlug (s : String) : Bool :=
  !s.isEmpty && s.toList.all slugChar

/-- Primary keys are unique (Django auto primary key). -/
def pksNodup (store : List RepoRow) : Prop :=
  (store.map RepoRow.pk).Nodup

/-- The claimed invariant: `(owner, name)` is unique among non-official
rows, and `name` alone is unique among official rows. -/
def repoInvariant (store : List RepoRow) : Prop :=
  (∀ r1 ∈ store, ∀ r2 ∈ store,
    r1.is_official = false → r2.is_official = false →
    r1.owner = r2.owner → r1.name = r2.name → r1.pk = r2.pk) ∧
  (∀ r1 ∈ store, ∀ r2 ∈ store,
    r1.is_official = true → r2.is_official = true →
    r1.name = r2.name → r1.pk = r2.pk)

/-- A repository create or edit as the application performs it: the
`repository_create` / edit views always construct `RepositoryForm` with
`request=request`, so the `self.request is None` early return in
`RepositoryForm.clean` is dead in the application and the duplicate checks
always run. -/
inductive RepoOp
  | create (pk owner : Nat) (isAdmin : Bool) (name initialTag : String)
      (official : Bool) (vis : Visibility) (desc : String)
  | edit (pk : Nat) (isAdmin : Bool) (official : Bool) (vis : Visibility)
      (desc : String)
  deriving Repr, DecidableEq

/-- Python `str.strip()`: drop ASCII whitespace from both ends, on the
string's character list. -/
def pyStrip (s : String) : String :=
  String.mk (((s.data.dropWhile Char.isWhitespace).reverse.dropWhile
    Char.isWhitespace).reverse)

/-- `Repository.objects.get(pk=...)` for the form's bound instance. -/
def findByPk (store : List RepoRow) (pk : Nat) : Option RepoRow :=
  store.find? (fun r => r.pk == pk)

/-- Apply a form-validated repository operation, following
`RepositoryForm.clean_is_official`, `RepositoryForm.clean`, the model's
name validator and the views' save logic.  `none` models a
`ValidationError` (or an impossible database state such as a duplicated
auto primary key): nothing is written.

For the edit path: the `name` field is disabled, so the row keeps its
stored name (stored names match `^[a-z0-9-]+$`, on which `strip()` is the
identity); when the instance is already official, `is_official` is
disabled as well, so the cleaned value is the stored `True` regardless of
the submission. -/
def applyRepoOp (op : RepoOp) (store : List RepoRow) : Option (List RepoRow) :=
  match op with
  | .create pk owner isAdmin name initialTag official vis desc =>
    let n := pyStrip name
    if official && !isAdmin then none
    else if n == "" then none
    else if !(validSlug n) then none
    else if pyStrip initialTag == "" then none
    else if official && (vis == Visibility.priv) then none
    else if store.any (fun r => r.name == n) then none
    else if store.any (fun r => r.pk == pk) then none
    else some (store ++ [⟨pk, owner, n, official, vis, desc⟩])
  | .edit pk isAdmin official vis desc =>
    match findByPk store pk with
    | none => none
    | some r0 =>
      let eo := r0.is_official || official
      if eo && !isAdmin then none
      else if r0.is_official && !eo then none
      else if eo && (vis == Visibility.priv) then none
      else if eo && store.any (fun r => r.pk != pk && r.is_official && r.name == r0.name)
        then none
      else if !eo && store.any (fun r =>
          r.pk != pk && !r.is_official && r.owner == r0.owner && r.name == r0.name)
        then none
      else some (store.map (fun r =>
        if r.pk == pk then
          { r with is_official := eo, visibility := vis, description := desc }
        else r))

end Repos

namespace Sync

lemma contains_iff_mem (l : List String) (s : String) :
    l.contains s = true ↔ s ∈ l := by
  simp [List.contains]

lemma regKeys_dictInsert (m : RegistryTags) (k : String) (v : TagData) :
    regKeys (dictInsert m k v) =
      if m.any (fun p => p.1 == k) then regKeys m else regKeys m ++ [k] := by
  unfold dictInsert
  split
  · next h =>
    unfold regKeys
    rw [List.map_map]
    apply List.map_congr_left
    intro p hp
    by_cases hpk : p.1 = k
    · simp [Function.comp, hpk]
    · simp [Function.comp, hpk]
  · unfold regKeys
    simp

lemma any_key_iff_mem (m : RegistryTags) (k : String) :
    m.any (fun p => p.1 == k) = true ↔ k ∈ regKeys m := by
  constructor
  · intro h
    rcases List.any_eq_true.mp h with ⟨p, hp, he⟩
    exact List.mem_map.mpr ⟨p, hp, beq_iff_eq.mp he⟩
  · intro h
    rcases List.mem_map.mp h with ⟨p, hp, he⟩
    exact List.any_eq_true.mpr ⟨p, hp, by simp [he]⟩

lemma keys_nodup_dictInsert (m : RegistryTags) (k : String) (v : TagData)
    (h : (regKeys m).Nodup) : (regKeys (dictInsert m k v)).Nodup := by
  rw [regKeys_dictInsert]
  split
  · exact h
  · next hne =>
    refine List.Nodup.append h (List.nodup_singleton k) ?_
    intro x hx hxk
    simp only [List.mem_singleton] at hxk
    exact hne ((any_key_iff_mem m k).mpr (hxk ▸ hx))

lemma keys_nodup_fetchFold (env : RegistryEnv) (nm : String) (l : List String)
    (acc : RegistryTags) (h : (regKeys acc).Nodup) :
    (regKeys (l.foldl (fetchStep env nm) acc)).Nodup := by
  induction l generalizing acc with
  | nil => exact h
  | cons t ts ih =>
    apply ih
    cases hman : env.manifest nm t with
    | error e => simpa [fetchStep, hman] using h
    | ok man =>
      cases hd : describeManifest man with
      | none => simpa [fetchStep, hman, hd] using h
      | some d =>
        simp only [fetchStep, hman, hd]
        exact keys_nodup_dictInsert _ _ _ h

lemma fetch_keys_nodup (env : RegistryEnv) (nm : String) (m : RegistryTags)
    (h : fetchRegistryTags env nm = .ok m) : (regKeys m).Nodup := by
  unfold fetchRegistryTags at h
  cases he : env.tags_for nm with
  | error e => rw [he] at h; exact absurd h (by simp)
  | ok l =>
    rw [he] at h
    simp only [Except.ok.injEq] at h
    subst h
    exact keys_nodup_fetchFold env nm l [] (by simp [regKeys])

lemma not_mem_keys_fetchFold (env : RegistryEnv) (nm t : String)
    (hdrop : tagDropped env nm t) (l : List String) (acc : RegistryTags)
    (hacc : t ∉ regKeys acc) :
    t ∉ regKeys (l.foldl (fetchStep env nm) acc) := by
  induction l generalizing acc with
  | nil => exact hacc
  | cons x xs ih =>
    apply ih
    by_cases hx : x = t
    · subst hx
      unfold tagDropped at hdrop
      cases hman : env.manifest nm x with
      | error e => simpa [fetchStep, hman] using hacc
      | ok man =>
        rw [hman] at hdrop
        simpa [fetchStep, hman, hdrop] using hacc
    · cases hman : env.manifest nm x with
      | error e => simpa [fetchStep, hman] using hacc
      | ok man =>
        cases hd : describeManifest man with
        | none => simpa [fetchStep, hman, hd] using hacc
        | some d =>
          simp only [fetchStep, hman, hd]
          rw [regKeys_dictInsert]
          split
          · exact hacc
          · intro hmem
            rcases List.mem_append.mp hmem with h1 | h2
            · exact hacc h1
            · simp only [List.mem_singleton] at h2
              exact hx h2.symm

lemma fetch_excludes_dropped (env : RegistryEnv) (nm t : String)
    (hdrop : tagDropped env nm t) (m : RegistryTags)
    (h : fetchRegistryTags env nm = .ok m) : t ∉ regKeys m := by
  unfold fetchRegistryTags at h
  cases he : env.tags_for nm with
  | error e => rw [he] at h; exact absurd h (by simp)
  | ok l =>
    rw [he] at h
    simp only [Except.ok.injEq] at h
    subst h
    exact not_mem_keys_fetchFold env nm t hdrop l [] (by simp [regKeys])

end Sync

namespace Sync

lemma contains_false_iff (l : List String) (s : String) :
    l.contains s = false ↔ s ∉ l := by
  constructor
  · intro h hm
    rw [(contains_iff_mem l s).mpr hm] at h
    cases h
  · intro h
    cases hc : l.contains s
    · rfl
    · exact absurd ((contains_iff_mem l s).mp hc) h

lemma bnot_contains_true (l : List String) (s : String) (h : s ∉ l) :
    (!(l.contains s)) = true := by
  rw [(contains_false_iff l s).mpr h]
  rfl

end Sync

namespace Sync

lemma stt_nil (now : Nat) (rows : List TagRow) :
    syncTagsTransaction now [] rows
      = .ok ((0, 0, (deletedNames [] rows).length), []) := by
  have hk : rows.filter (fun r => (regKeys ([] : RegistryTags)).contains r.name)
      = [] := by
    apply List.filter_eq_nil_iff.mpr
    intro r _
    simp [regKeys]
  simp only [syncTagsTransaction, List.isEmpty_nil, Bool.not_true,
    Bool.false_and, hk]
  rfl

lemma rowsOf_setRows_self (db : DBState) (rid : Nat) (rows : List TagRow) :
    rowsOf (setRows db rid rows) rid = rows := by
  unfold rowsOf setRows
  rw [List.filter_append]
  have h1 : (db.filter (fun p => p.1 != rid)).filter (fun p => p.1 == rid) = [] := by
    apply List.filter_eq_nil_iff.mpr
    intro p hp
    have h := (List.mem_filter.mp hp).2
    simp at h ⊢
    exact h
  have h2 : (rows.map (fun r => (rid, r))).filter (fun p => p.1 == rid)
      = rows.map (fun r => (rid, r)) := by
    apply List.filter_eq_self.mpr
    intro p hp
    rcases List.mem_map.mp hp with ⟨r, hr, he⟩
    rw [← he]
    simp
  rw [h1, h2]
  simp [List.map_map, Function.comp]

lemma rowsOf_setRows_other (db : DBState) (rid : Nat) (rows : List TagRow)
    (j : Nat) (hne : j ≠ rid) :
    rowsOf (setRows db rid rows) j = rowsOf db j := by
  unfold rowsOf setRows
  rw [List.filter_append]
  have h2 : (rows.map (fun r => (rid, r))).filter (fun p => p.1 == j) = [] := by
    apply List.filter_eq_nil_iff.mpr
    intro p hp
    rcases List.mem_map.mp hp with ⟨r, hr, he⟩
    rw [← he]
    simp
    exact fun h => hne h.symm
  have h1 : (db.filter (fun p => p.1 != rid)).filter (fun p => p.1 == j)
      = db.filter (fun p => p.1 == j) := by
    induction db with
    | nil => rfl
    | cons p t ih =>
      by_cases hpj : p.1 = j
      · have hb : (p.1 != rid) = true := by
          simp
          rw [hpj]
          exact hne
        simp only [List.filter, hb]
        have hj : (p.1 == j) = true := by simp [hpj]
        simp only [List.filter, hj, ih]
      · have hj : (p.1 == j) = false := by simp [hpj]
        by_cases hpr : p.1 = rid
        · have hb : (p.1 != rid) = false := by simp [hpr]
          simp only [List.filter, hb, hj, ih]
        · have hb : (p.1 != rid) = true := by simp [hpr]
          simp only [List.filter, hb, hj, ih]
  rw [h1, h2, List.append_nil]

lemma fetch_ok_of_tags_ok (env : RegistryEnv) (nm : String) (l : List String)
    (h : env.tags_for nm = .ok l) :
    fetchRegistryTags env nm = .ok (l.foldl (fetchStep env nm) []) := by
  unfold fetchRegistryTags
  rw [h]

lemma fetch_error_of_tags_error (env : RegistryEnv) (nm : String) (e : String)
    (h : env.tags_for nm = .error e) :
    fetchRegistryTags env nm = .error e := by
  unfold fetchRegistryTags
  rw [h]

lemma srt_ok (env : RegistryEnv) (now : Nat) (repo : Repo) (db : DBState)
    (stats : SyncStats) (reg : RegistryTags)
    (res : (Nat × Nat × Nat) × List TagRow)
    (hfetch : fetchRegistryTags env repo.name = .ok reg)
    (htr : syncTagsTransaction now reg (rowsOf db repo.id) = .ok res) :
    syncRepositoryTags env now repo db stats = .ok
      (res.1, setRows db repo.id res.2,
       { stats with
         repos_processed := stats.repos_processed + 1
         tags_created := stats.tags_created + res.1.1
         tags_updated := stats.tags_updated + res.1.2.1
         tags_deleted := stats.tags_deleted + res.1.2.2 }) := by
  simp only [syncRepositoryTags, hfetch, htr]

lemma srt_tr_error (env : RegistryEnv) (now : Nat) (repo : Repo)
    (db : DBState) (stats : SyncStats) (reg : RegistryTags) (e : String)
    (hfetch : fetchRegistryTags env repo.name = .ok reg)
    (htr : syncTagsTransaction now reg (rowsOf db repo.id) = .error e) :
    syncRepositoryTags env now repo db stats = .error e := by
  simp only [syncRepositoryTags, hfetch, htr]

lemma srt_error (env : RegistryEnv) (now : Nat) (repo : Repo) (db : DBState)
    (stats : SyncStats) (e : String)
    (hfetch : fetchRegistryTags env repo.name = .error e) :
    syncRepositoryTags env now repo db stats = .error e := by
  unfold syncRepositoryTags
  rw [hfetch]

lemma syncAll_cons_ok (env : RegistryEnv) (now : Nat) (repo : Repo)
    (rest : List Repo) (db : DBState) (stats : SyncStats)
    (r : Nat × Nat × Nat) (db2 : DBState) (s2 : SyncStats)
    (h : syncRepositoryTags env now repo db stats = .ok (r, db2, s2)) :
    syncAllTags env now (repo :: rest) db stats = syncAllTags env now rest db2 s2 := by
  simp only [syncAllTags, h]

lemma syncAll_cons_error (env : RegistryEnv) (now : Nat) (repo : Repo)
    (rest : List Repo) (db : DBState) (stats : SyncStats) (e : String)
    (h : syncRepositoryTags env now repo db stats = .error e) :
    syncAllTags env now (repo :: rest) db stats =
      syncAllTags env now rest db
        { stats with
          repos_skipped := stats.repos_skipped + 1
          errors := stats.errors ++ [failMsg repo.name e] } := by
  simp only [syncAllTags, h]

lemma syncAll_untouched (env : RegistryEnv) (now : Nat) (repos : List Repo)
    (db : DBState) (stats : SyncStats) (j : Nat)
    (hj : ∀ repo ∈ repos, repo.id ≠ j) :
    rowsOf (syncAllTags env now repos db stats).1 j = rowsOf db j := by
  induction repos generalizing db stats with
  | nil => rfl
  | cons repo rest ih =>
    cases hsrt : syncRepositoryTags env now repo db stats with
    | error e =>
      rw [syncAll_cons_error env now repo rest db stats e hsrt]
      exact ih _ _ (fun x hx => hj x (List.mem_cons.mpr (Or.inr hx)))
    | ok res =>
      rcases res with ⟨r, db2, s2⟩
      rw [syncAll_cons_ok env now repo rest db stats r db2 s2 hsrt]
      rw [ih _ _ (fun x hx => hj x (List.mem_cons.mpr (Or.inr hx)))]
      cases hf : fetchRegistryTags env repo.name with
      | error e =>
        rw [srt_error env now repo db stats e hf] at hsrt
        exact Except.noConfusion hsrt
      | ok reg =>
        cases ht : syncTagsTransaction now reg (rowsOf db repo.id) with
        | error e =>
          rw [srt_tr_error env now repo db stats reg e hf ht] at hsrt
          exact Except.noConfusion hsrt
        | ok res0 =>
          rw [srt_ok env now repo db stats reg res0 hf ht] at hsrt
          simp only [Except.ok.injEq, Prod.mk.injEq] at hsrt
          rw [← hsrt.2.1]
          exact rowsOf_setRows_other db repo.id _ j
            (fun h => hj repo (List.mem_cons_self repo rest) h.symm)

end Sync

namespace Sync

lemma addStats_zero (s : SyncStats) : addStats s {} = s := by
  cases s
  simp [addStats]

lemma srt_stats_shift (env : RegistryEnv) (now : Nat) (repo : Repo)
    (db : DBState) (x y : SyncStats) :
    syncRepositoryTags env now repo db (addStats x y) =
      (syncRepositoryTags env now repo db y).map
        (fun res => (res.1, res.2.1, addStats x res.2.2)) := by
  cases hf : fetchRegistryTags env repo.name with
  | error e =>
    rw [srt_error env now repo db (addStats x y) e hf,
      srt_error env now repo db y e hf]
    rfl
  | ok reg =>
    cases ht : syncTagsTransaction now reg (rowsOf db repo.id) with
    | error e =>
      rw [srt_tr_error env now repo db (addStats x y) reg e hf ht,
        srt_tr_error env now repo db y reg e hf ht]
      rfl
    | ok res =>
      rw [srt_ok env now repo db (addStats x y) reg res hf ht,
        srt_ok env now repo db y reg res hf ht]
      simp only [Except.map]
      congr 1
      congr 1
      congr 1
      cases x
      cases y
      simp [addStats, Nat.add_assoc]

lemma syncAll_stats_shift (env : RegistryEnv) (now : Nat) (repos : List Repo)
    (db : DBState) (x y : SyncStats) :
    syncAllTags env now repos db (addStats x y) =
      ((syncAllTags env now repos db y).1,
        addStats x (syncAllTags env now repos db y).2) := by
  induction repos generalizing db y with
  | nil => rfl
  | cons repo rest ih =>
    have herr : ∀ e : String,
        syncRepositoryTags env now repo db (addStats x y) = .error e →
        syncRepositoryTags env now repo db y = .error e →
        syncAllTags env now (repo :: rest) db (addStats x y) =
          ((syncAllTags env now (repo :: rest) db y).1,
            addStats x (syncAllTags env now (repo :: rest) db y).2) := by
      intro e h1 h2
      rw [syncAll_cons_error env now repo rest db (addStats x y) e h1]
      rw [syncAll_cons_error env now repo rest db y e h2]
      have hrec : ({ addStats x y with
          repos_skipped := (addStats x y).repos_skipped + 1
          errors := (addStats x y).errors ++ [failMsg repo.name e] } : SyncStats)
          = addStats x { y with
            repos_skipped := y.repos_skipped + 1
            errors := y.errors ++ [failMsg repo.name e] } := by
        cases x
        cases y
        simp [addStats, Nat.add_assoc]
      rw [hrec]
      exact ih _ _
    cases hf : fetchRegistryTags env repo.name with
    | error e =>
      exact herr e (srt_error env now repo db (addStats x y) e hf)
        (srt_error env now repo db y e hf)
    | ok reg =>
      cases ht : syncTagsTransaction now reg (rowsOf db repo.id) with
      | error e =>
        exact herr e (srt_tr_error env now repo db (addStats x y) reg e hf ht)
          (srt_tr_error env now repo db y reg e hf ht)
      | ok res =>
        rw [syncAll_cons_ok env now repo rest db (addStats x y) _ _ _
          (srt_ok env now repo db (addStats x y) reg res hf ht)]
        rw [syncAll_cons_ok env now repo rest db y _ _ _
          (srt_ok env now repo db y reg res hf ht)]
        have hrec : ({ addStats x y with
            repos_processed := (addStats x y).repos_processed + 1
            tags_created := (addStats x y).tags_created + res.1.1
            tags_updated := (addStats x y).tags_updated + res.1.2.1
            tags_deleted := (addStats x y).tags_deleted + res.1.2.2 } : SyncStats)
            = addStats x { y with
              repos_processed := y.repos_processed + 1
              tags_created := y.tags_created + res.1.1
              tags_updated := y.tags_updated + res.1.2.1
              tags_deleted := y.tags_deleted + res.1.2.2 } := by
          cases x
          cases y
          simp [addStats, Nat.add_assoc]
        rw [hrec]
        exact ih _ _

lemma fetch_health_irrel (env : RegistryEnv) (b : Bool) (nm : String) :
    fetchRegistryTags { env with health := b } nm = fetchRegistryTags env nm := rfl

lemma srt_health_irrel (env : RegistryEnv) (b : Bool) (now : Nat) (repo : Repo)
    (db : DBState) (stats : SyncStats) :
    syncRepositoryTags { env with health := b } now repo db stats =
      syncRepositoryTags env now repo db stats := rfl

lemma syncAll_health_irrel (env : RegistryEnv) (b : Bool) (now : Nat)
    (repos : List Repo) (db : DBState) (stats : SyncStats) :
    syncAllTags { env with health := b } now repos db stats =
      syncAllTags env now repos db stats := by
  induction repos generalizing db stats with
  | nil => rfl
  | cons repo rest ih =>
    cases hs : syncRepositoryTags env now repo db stats with
    | ok res =>
      rcases res with ⟨r, db2, s2⟩
      rw [syncAll_cons_ok env now repo rest db stats r db2 s2 hs]
      rw [syncAll_cons_ok { env with health := b } now repo rest db stats r db2 s2
        ((srt_health_irrel env b now repo db stats).trans hs)]
      exact ih db2 s2
    | error e =>
      rw [syncAll_cons_error env now repo rest db stats e hs]
      rw [syncAll_cons_error { env with health := b } now repo rest db stats e
        ((srt_health_irrel env b now repo db stats).trans hs)]
      exact ih _ _

end Sync

namespace Sync

/-- C1 (code bug): reconciliation cannot happen.  At a repository whose
tag-list fetch succeeds with described tags `v1`, `v2` and an empty local
store, the new-tag branch's `Tag.objects.create(...)` raises `TypeError`
(`os`, `arch`, `image_type`, `last_synced` are not fields of the declared
model), so `sync_repository_tags` raises instead of returning: no row is
created, the local row set does not become the registry map, and the
batch records the repository as skipped with the exception message. -/
theorem c1_reconciliation_raises_typeerror :
    fetchRegistryTags envW "app" =
      Except.ok [("v1", ⟨some "sha-v1", 3, "linux", "amd64", "distribution"⟩),
        ("v2", ⟨some "sha-v2", 3, "linux", "amd64", "distribution"⟩)] ∧
    syncRepositoryTags envW 7 ⟨1, "app"⟩ [] {} =
      Except.error tagCreateTypeError ∧
    (syncAllTags envW 7 [⟨1, "app"⟩] [] {}).1 = [] ∧
    (syncAllTags envW 7 [⟨1, "app"⟩] [] {}).2 =
      { repos_processed := 0
        repos_skipped := 1
        tags_created := 0
        tags_updated := 0
        tags_deleted := 0
        errors := [failMsg "app" tagCreateTypeError] } :=
  ⟨by decide, by decide, by decide, by decide⟩

/-- C2: a failed tag-list fetch makes `sync_repository_tags` re-raise
before any mutation, and `sync_all_tags` catches it, appends the formatted
message to `SyncStats.errors`, increments `repos_skipped`, and continues
with the remaining repositories; the failed repository's rows are
untouched by the whole batch. -/
theorem c2_failure_isolation (env : RegistryEnv) (now : Nat) (repo : Repo)
    (rest : List Repo) (db : DBState) (s : SyncStats) (e : String)
    (hfail : env.tags_for repo.name = .error e) :
    fetchRegistryTags env repo.name = Except.error e ∧
    syncRepositoryTags env now repo db s = Except.error e ∧
    syncAllTags env now (repo :: rest) db s =
      syncAllTags env now rest db
        { s with
          repos_skipped := s.repos_skipped + 1
          errors := s.errors ++ [failMsg repo.name e] } ∧
    ((∀ r ∈ rest, r.id ≠ repo.id) →
      rowsOf (syncAllTags env now (repo :: rest) db s).1 repo.id
        = rowsOf db repo.id) := by
  have hf := fetch_error_of_tags_error env repo.name e hfail
  have hsrt := srt_error env now repo db s e hf
  refine ⟨hf, hsrt, syncAll_cons_error env now repo rest db s e hsrt, ?_⟩
  intro hids
  rw [syncAll_cons_error env now repo rest db s e hsrt]
  exact syncAll_untouched env now rest db _ repo.id hids

/-- Witness for C2: one unreachable repository followed by none. -/
theorem c2_witness :
    fetchRegistryTags envDown "app" = Except.error "connection refused" ∧
    syncRepositoryTags envDown 3 ⟨1, "app"⟩ [(1, sampleRow)] {}
      = Except.error "connection refused" ∧
    syncAllTags envDown 3 [⟨1, "app"⟩] [(1, sampleRow)] {} =
      syncAllTags envDown 3 [] [(1, sampleRow)]
        { ({} : SyncStats) with
          repos_skipped := ({} : SyncStats).repos_skipped + 1
          errors := ({} : SyncStats).errors
            ++ [failMsg (Repo.mk 1 "app").name "connection refused"] } ∧
    ((∀ r ∈ ([] : List Repo), r.id ≠ (Repo.mk 1 "app").id) →
      rowsOf (syncAllTags envDown 3 [⟨1, "app"⟩] [(1, sampleRow)] {}).1
          (Repo.mk 1 "app").id
        = rowsOf [(1, sampleRow)] (Repo.mk 1 "app").id) :=
  c2_failure_isolation envDown 3 ⟨1, "app"⟩ [] [(1, sampleRow)] {}
    "connection refused" rfl

end Sync

namespace Sync

/-- C3 (code bug): the failed-manifest tag `stale` is indeed excluded
from the comparison map and its local row falls into the transaction's
deleted-name set, but the claimed continuation and removal do not happen:
the other listed tag `v1` is successfully described, so the new-tag
branch raises `TypeError`, the repository sync fails at repository level,
the atomic transaction rolls back, and the `stale` row survives the
whole batch. -/
theorem c3_exclusion_without_removal :
    fetchRegistryTags envFlaky "app" =
      Except.ok [("v1", ⟨some "sha-v1", 3, "linux", "amd64", "image"⟩)] ∧
    "stale" ∉ regKeys
      [("v1", (⟨some "sha-v1", 3, "linux", "amd64", "image"⟩ : TagData))] ∧
    "stale" ∈ deletedNames
      [("v1", (⟨some "sha-v1", 3, "linux", "amd64", "image"⟩ : TagData))]
      (rowsOf [(1, sampleRow)] 1) ∧
    syncRepositoryTags envFlaky 9 ⟨1, "app"⟩ [(1, sampleRow)] {} =
      Except.error tagCreateTypeError ∧
    rowsOf (syncAllTags envFlaky 9 [⟨1, "app"⟩] [(1, sampleRow)] {}).1 1
      = [sampleRow] :=
  ⟨by decide, by decide, by decide, by decide, by decide⟩

/-- C10: when a manifest is served but its `mediaType` (defaulting to
the empty string when absent) splits into fewer than three dot-separated
components, the image-type extraction `split('.')[-3]` raises
`IndexError`; the per-tag handler catches it, so the tag is dropped from
the comparison map exactly like a failed manifest fetch, and an existing
local row under that name falls into the transaction's deleted-name set —
it is eligible for deletion, and is actually removed in the runs where
the transaction completes (an empty described map). -/
theorem c10_short_mediatype_drops_tag (env : RegistryEnv) (now : Nat)
    (repo : Repo) (db : DBState) (s : SyncStats) (l : List String)
    (t : String) (man : Manifest)
    (hl : env.tags_for repo.name = .ok l) (hmem : t ∈ l)
    (hman : env.manifest repo.name t = .ok man)
    (hshort : (pySplitChar '.' (man.mediaType.getD "").data).length < 3)
    (hrow : ∃ r ∈ rowsOf db repo.id, r.name = t) :
    image_type_of (man.mediaType.getD "") = none ∧
    describeManifest man = none ∧
    ∃ m, fetchRegistryTags env repo.name = Except.ok m ∧
      t ∉ regKeys m ∧
      t ∈ deletedNames m (rowsOf db repo.id) ∧
      (m = [] → ∃ cnts db2 s2,
        syncRepositoryTags env now repo db s = Except.ok (cnts, db2, s2) ∧
        rowsOf db2 repo.id = [] ∧
        1 ≤ cnts.2.2) := by
  have hidx : image_type_of (man.mediaType.getD "") = none := by
    simp only [image_type_of]
    rw [dif_neg]
    omega
  have hdesc : describeManifest man = none := by
    unfold describeManifest
    rw [hidx]
  have hf : fetchRegistryTags env repo.name
      = .ok (l.foldl (fetchStep env repo.name) []) :=
    fetch_ok_of_tags_ok env repo.name l hl
  set m := l.foldl (fetchStep env repo.name) []
  have hdrop : tagDropped env repo.name t := by
    simp [tagDropped, hman, hdesc]
  have hexcl := fetch_excludes_dropped env repo.name t hdrop m hf
  rcases hrow with ⟨r, hr, hname⟩
  have hdel : t ∈ deletedNames m (rowsOf db repo.id) := by
    unfold deletedNames
    apply List.mem_dedup.mpr
    exact List.mem_filter.mpr
      ⟨List.mem_map.mpr ⟨r, hr, hname⟩, bnot_contains_true _ _ hexcl⟩
  refine ⟨hidx, hdesc, m, hf, hexcl, hdel, ?_⟩
  intro hme
  rw [hme] at hf
  have htr := stt_nil now (rowsOf db repo.id)
  refine ⟨_, _, _, srt_ok env now repo db s [] _ hf htr, ?_, ?_⟩
  · rw [rowsOf_setRows_self]
  · have hmem2 : t ∈ deletedNames [] (rowsOf db repo.id) := by
      rw [← hme]
      exact hdel
    exact List.length_pos_of_mem hmem2

/-- Witness for C10 at a manifest with an absent `mediaType`: the single
listed tag is dropped, the described map is empty, and the stale local
row is deleted. -/
theorem c10_witness :
    image_type_of ((Manifest.mk (some "sha-x") 3 "linux" "amd64" none).mediaType.getD "")
      = none ∧
    describeManifest (Manifest.mk (some "sha-x") 3 "linux" "amd64" none) = none ∧
    ∃ m, fetchRegistryTags envNoMedia "app" = Except.ok m ∧
      "stale" ∉ regKeys m ∧
      "stale" ∈ deletedNames m (rowsOf [(1, sampleRow)] (Repo.mk 1 "app").id) ∧
      (m = [] → ∃ cnts db2 s2,
        syncRepositoryTags envNoMedia 4 ⟨1, "app"⟩ [(1, sampleRow)] {}
          = Except.ok (cnts, db2, s2) ∧
        rowsOf db2 (Repo.mk 1 "app").id = [] ∧
        1 ≤ cnts.2.2) :=
  c10_short_mediatype_drops_tag envNoMedia 4 ⟨1, "app"⟩ [(1, sampleRow)] {}
    ["stale"] "stale" (Manifest.mk (some "sha-x") 3 "linux" "amd64" none)
    rfl (by decide) rfl (by decide) ⟨sampleRow, by decide, rfl⟩

end Sync

namespace Sync

/-- C4 (code bug): reconciliation is not idempotent because no run over
a nonempty described map can complete at all.  Even in the best case for
the claim — local rows already named after the registry's tags, so both
runs would be pure heartbeats — the first run raises `ValueError` from
`save(update_fields=['last_synced'])`, the batch skips the repository,
the rows are unchanged, and the model has no `last_synced` column to
advance in the first place. -/
theorem c4_no_second_run :
    tagModelFields.contains "last_synced" = false ∧
    syncRepositoryTags envW 7 ⟨1, "app"⟩ [(1, rowV1), (1, rowV2)] {} =
      Except.error tagSaveValueError ∧
    rowsOf (syncAllTags envW 7 [⟨1, "app"⟩] [(1, rowV1), (1, rowV2)] {}).1 1
      = [rowV1, rowV2] ∧
    (syncAllTags envW 7 [⟨1, "app"⟩] [(1, rowV1), (1, rowV2)] {}).2.repos_skipped
      = 1 :=
  ⟨by decide, by decide, by decide, by decide⟩

end Sync

namespace Sync

/-- C6 (code bug): neither update path can run and no count triple is
returned.  With one common tag whose stored digest differs from the
fetched one, the digest-changed overwrite's `save(update_fields=[...])`
raises `ValueError`; with one new tag, `Tag.objects.create(...)` raises
`TypeError`; in both cases `sync_repository_tags` raises instead of
returning `(created_count, updated_count, deleted_count)`, and the
stored rows are unchanged. -/
theorem c6_update_paths_raise :
    fetchRegistryTags envOne "app" =
      Except.ok [("v1", ⟨some "sha-v1", 3, "linux", "amd64", "distribution"⟩)] ∧
    rowOld.digest ≠ "sha-v1" ∧
    syncRepositoryTags envOne 7 ⟨1, "app"⟩ [(1, rowOld)] {} =
      Except.error tagSaveValueError ∧
    syncRepositoryTags envOne 7 ⟨1, "app"⟩ [] {} =
      Except.error tagCreateTypeError ∧
    rowsOf (syncAllTags envOne 7 [⟨1, "app"⟩] [(1, rowOld)] {}).1 1
      = [rowOld] :=
  ⟨by decide, by decide, by decide, by decide, by decide⟩

end Sync

namespace Sync

lemma srt_from_zero (env : RegistryEnv) (now : Nat) (repo : Repo)
    (db : DBState) (s : SyncStats) :
    syncRepositoryTags env now repo db s =
      (syncRepositoryTags env now repo db {}).map
        (fun res => (res.1, res.2.1, addStats s res.2.2)) := by
  have h := srt_stats_shift env now repo db s {}
  rwa [addStats_zero] at h

lemma byName_from_zero (env : RegistryEnv) (now : Nat) (repos : List Repo)
    (nm : String) (db : DBState) (s : SyncStats) :
    syncRepositoryByName env now repos nm db s =
      (syncRepositoryByName env now repos nm db {}).map
        (fun res => (res.1, res.2.1, addStats s res.2.2)) := by
  cases hfind : repos.find? (fun r => r.name == nm) with
  | some repo =>
    simp only [syncRepositoryByName, hfind]
    exact srt_from_zero env now repo db s
  | none =>
    simp only [syncRepositoryByName, hfind]
    rfl

/-- C9: `SyncService` accumulates its `SyncStats` across calls: starting a
call from any already-accumulated stats `s` yields exactly the
from-zero outcome with `s` added on (counts summed, error lists
concatenated) — for `sync_repository_tags`, `sync_repository_by_name` and
`sync_all_tags` alike — so a second `sync_all_tags` on the same instance
returns stats that include everything accumulated before it, not a fresh
zero. -/
theorem c9_stats_accumulate (env : RegistryEnv) (now : Nat) (repo : Repo)
    (repos : List Repo) (nm : String) (rs : List Repo) (db : DBState)
    (s : SyncStats) :
    syncRepositoryTags env now repo db s =
      (syncRepositoryTags env now repo db {}).map
        (fun res => (res.1, res.2.1, addStats s res.2.2)) ∧
    syncRepositoryByName env now repos nm db s =
      (syncRepositoryByName env now repos nm db {}).map
        (fun res => (res.1, res.2.1, addStats s res.2.2)) ∧
    (syncAllTags env now rs db s).1 = (syncAllTags env now rs db {}).1 ∧
    (syncAllTags env now rs db s).2
      = addStats s (syncAllTags env now rs db {}).2 := by
  have h := syncAll_stats_shift env now rs db s {}
  rw [addStats_zero] at h
  exact ⟨srt_from_zero env now repo db s, byName_from_zero env now repos nm db s,
    by rw [h], by rw [h]⟩

/-- C8 counterexample: in a world where every health probe returns
`false` — so `check_health` cannot have been invoked and returned `true`
beforehand — the batch command still runs and mutates `Tag` rows: the
pre-existing row of the only repository is deleted and counted. -/
theorem c8_counterexample :
    check_health envUnhealthy = false ∧
    rowsOf [(1, sampleRow)] 1 = [sampleRow] ∧
    (commandSyncAll envUnhealthy 3 [⟨1, "app"⟩] [(1, sampleRow)]).1 = [] ∧
    (commandSyncAll envUnhealthy 3 [⟨1, "app"⟩] [(1, sampleRow)]).2.tags_deleted
      = 1 :=
  ⟨rfl, by decide, by decide, by decide⟩

/-- C8 amended: `check_health` exists on the client but is not consulted
by the batch path: `sync_all_tags` and the batch branch of the `sync_tags`
command behave identically whatever the health probe would return (no
health gate precedes any mutation). -/
theorem c8_no_health_gate (env : RegistryEnv) (b : Bool) (now : Nat)
    (repos : List Repo) (db : DBState) (stats : SyncStats) :
    syncAllTags { env with health := b } now repos db stats
      = syncAllTags env now repos db stats ∧
    commandSyncAll { env with health := b } now repos db
      = commandSyncAll env now repos db ∧
    check_health { env with health := b } = b :=
  ⟨syncAll_health_irrel env b now repos db stats,
   syncAll_health_irrel env b now repos db {}, rfl⟩

/-- C5 (code bug): the Django model `repositories.models.Tag` declares
only `name`, `digest`, `size`, `repository`, `created_at` (plus the auto
`id`), so the sync engine's `Tag.objects.create(...)` passes four keyword
arguments that are not model fields — `os`, `arch`, `image_type`,
`last_synced` — which `Model.__init__` rejects with `TypeError`; likewise
both `save(update_fields=...)` calls name non-fields, which `Model.save`
rejects with `ValueError`.  The model rows therefore carry neither the
platform metadata nor `last_synced` that the claim (and the sync code)
assume. -/
theorem c5_tag_model_lacks_sync_fields :
    djangoRejectedKwargs tagModelFields syncCreateKwargs
      = ["os", "arch", "image_type", "last_synced"] ∧
    djangoRejectedKwargs tagModelFields syncUpdateFields
      = ["os", "arch", "image_type", "last_synced"] ∧
    djangoRejectedKwargs tagModelFields heartbeatUpdateFields
      = ["last_synced"] := by
  decide

end Sync

namespace Repos

lemma pk_inj (store : List RepoRow) (hpk : pksNodup store) :
    ∀ r1 ∈ store, ∀ r2 ∈ store, r1.pk = r2.pk → r1 = r2 := by
  intro r1 h1 r2 h2 he
  exact List.inj_on_of_nodup_map hpk h1 h2 he

lemma create_preserves (store : List RepoRow) (new : RepoRow)
    (hpk : pksNodup store) (hinv : repoInvariant store)
    (hname : ∀ r ∈ store, r.name ≠ new.name)
    (hfresh : ∀ r ∈ store, r.pk ≠ new.pk) :
    repoInvariant (store ++ [new]) ∧ pksNodup (store ++ [new]) := by
  constructor
  · constructor
    · intro r1 h1 r2 h2 ho1 ho2 how hn
      rcases List.mem_append.mp h1 with h1a | h1b
      · rcases List.mem_append.mp h2 with h2a | h2b
        · exact hinv.1 r1 h1a r2 h2a ho1 ho2 how hn
        · have : r2 = new := List.mem_singleton.mp h2b
          exact absurd (this ▸ hn) (hname r1 h1a)
      · have he1 : r1 = new := List.mem_singleton.mp h1b
        rcases List.mem_append.mp h2 with h2a | h2b
        · exact absurd (he1 ▸ hn.symm) (hname r2 h2a)
        · have he2 : r2 = new := List.mem_singleton.mp h2b
          rw [he1, he2]
    · intro r1 h1 r2 h2 ho1 ho2 hn
      rcases List.mem_append.mp h1 with h1a | h1b
      · rcases List.mem_append.mp h2 with h2a | h2b
        · exact hinv.2 r1 h1a r2 h2a ho1 ho2 hn
        · have : r2 = new := List.mem_singleton.mp h2b
          exact absurd (this ▸ hn) (hname r1 h1a)
      · have he1 : r1 = new := List.mem_singleton.mp h1b
        rcases List.mem_append.mp h2 with h2a | h2b
        · exact absurd (he1 ▸ hn.symm) (hname r2 h2a)
        · have he2 : r2 = new := List.mem_singleton.mp h2b
          rw [he1, he2]
  · unfold pksNodup
    rw [List.map_append]
    refine List.Nodup.append hpk (List.nodup_singleton _) ?_
    intro x hx hx2
    simp only [List.map_cons, List.map_nil, List.mem_singleton] at hx2
    rcases List.mem_map.mp hx with ⟨r, hr, he⟩
    exact hfresh r hr (he.symm ▸ hx2)

lemma edit_preserves (store : List RepoRow) (r0 : RepoRow)
    (official : Bool) (vis : Visibility) (desc : String) (pk : Nat)
    (hpk : pksNodup store) (hinv : repoInvariant store)
    (hr0m : r0 ∈ store) (hr0pk : r0.pk = pk)
    (hdup : (r0.is_official || official) = true →
      ∀ r ∈ store, ¬(r.pk ≠ pk ∧ r.is_official = true ∧ r.name = r0.name)) :
    repoInvariant (store.map (fun r =>
      if r.pk == pk then
        { r with
          is_official := r0.is_official || official
          visibility := vis
          description := desc }
      else r)) ∧
    pksNodup (store.map (fun r =>
      if r.pk == pk then
        { r with
          is_official := r0.is_official || official
          visibility := vis
          description := desc }
      else r)) := by
  set eo := r0.is_official || official with heo
  set f := fun r : RepoRow =>
    if r.pk == pk then
      { r with is_official := eo, visibility := vis, description := desc }
    else r with hfdef
  have hfpk : ∀ r : RepoRow, (f r).pk = r.pk := by
    intro r
    by_cases h : r.pk = pk
    · simp [hfdef, h]
    · simp [hfdef, h]
  have hfname : ∀ r : RepoRow, (f r).name = r.name := by
    intro r
    by_cases h : r.pk = pk
    · simp [hfdef, h]
    · simp [hfdef, h]
  have hfowner : ∀ r : RepoRow, (f r).owner = r.owner := by
    intro r
    by_cases h : r.pk = pk
    · simp [hfdef, h]
    · simp [hfdef, h]
  have hfid : ∀ r : RepoRow, r.pk ≠ pk → f r = r := by
    intro r h
    simp [hfdef, h]
  have hfr0 : ∀ r : RepoRow, r.pk = pk → (f r).is_official = eo := by
    intro r h
    simp [hfdef, h]
  have huniq : ∀ r ∈ store, r.pk = pk → r = r0 :=
    fun r hr he => pk_inj store hpk r hr r0 hr0m (he.trans hr0pk.symm)
  have hofficial : ∀ r : RepoRow, r.pk ≠ pk → (f r).is_official = r.is_official := by
    intro r h
    rw [hfid r h]
  constructor
  · constructor
    · intro r1' h1' r2' h2' ho1 ho2 how hn
      rcases List.mem_map.mp h1' with ⟨r1, h1, he1⟩
      rcases List.mem_map.mp h2' with ⟨r2, h2, he2⟩
      subst he1
      subst he2
      rw [hfpk r1, hfpk r2]
      by_cases b1 : r1.pk = pk <;> by_cases b2 : r2.pk = pk
      · rw [b1, b2]
      · have hr1 : r1 = r0 := huniq r1 h1 b1
        have heo0 : eo = false := by rw [← hfr0 r1 b1]; exact ho1
        have hro : r0.is_official = false := by
          have hh := heo
          rw [heo0] at hh
          exact (Bool.or_eq_false_iff.mp hh.symm).1
        rw [hfid r2 b2] at ho2 how hn
        rw [hfname r1] at hn
        rw [hfowner r1] at how
        rw [hr1] at hn how
        rw [hr1]
        exact hinv.1 r0 hr0m r2 h2 hro ho2 how hn
      · have hr2 : r2 = r0 := huniq r2 h2 b2
        have heo0 : eo = false := by rw [← hfr0 r2 b2]; exact ho2
        have hro : r0.is_official = false := by
          have hh := heo
          rw [heo0] at hh
          exact (Bool.or_eq_false_iff.mp hh.symm).1
        rw [hfid r1 b1] at ho1 how hn
        rw [hfname r2] at hn
        rw [hfowner r2] at how
        rw [hr2] at hn how
        rw [hr2]
        exact hinv.1 r1 h1 r0 hr0m ho1 hro how hn
      · rw [hfid r1 b1] at ho1 how hn
        rw [hfid r2 b2] at ho2 how hn
        exact hinv.1 r1 h1 r2 h2 ho1 ho2 how hn
    · intro r1' h1' r2' h2' ho1 ho2 hn
      rcases List.mem_map.mp h1' with ⟨r1, h1, he1⟩
      rcases List.mem_map.mp h2' with ⟨r2, h2, he2⟩
      subst he1
      subst he2
      rw [hfpk r1, hfpk r2]
      by_cases b1 : r1.pk = pk <;> by_cases b2 : r2.pk = pk
      · rw [b1, b2]
      · have hr1 : r1 = r0 := huniq r1 h1 b1
        have heot : eo = true := by rw [← hfr0 r1 b1]; exact ho1
        rw [hfid r2 b2] at ho2 hn
        rw [hfname r1, hr1] at hn
        exact absurd ⟨b2, ho2, hn.symm⟩ (hdup heot r2 h2)
      · have hr2 : r2 = r0 := huniq r2 h2 b2
        have heot : eo = true := by rw [← hfr0 r2 b2]; exact ho2
        rw [hfid r1 b1] at ho1 hn
        rw [hfname r2, hr2] at hn
        exact absurd ⟨b1, ho1, hn⟩ (hdup heot r1 h1)
      · rw [hfid r1 b1] at ho1 hn
        rw [hfid r2 b2] at ho2 hn
        exact hinv.2 r1 h1 r2 h2 ho1 ho2 hn
  · unfold pksNodup
    rw [List.map_map]
    have : store.map (RepoRow.pk ∘ f) = store.map RepoRow.pk :=
      List.map_congr_left (fun r _ => hfpk r)
    rw [this]
    exact hpk

end Repos

namespace Repos

/-- C7: the uniqueness invariant — `(owner, name)` unique among
non-official rows, `name` globally unique among official rows — is
preserved by every validated repository operation: when a form-validated
create or edit goes through (`applyRepoOp` returns a new store), a store
satisfying the invariant (with unique primary keys) still satisfies it,
and primary keys stay unique. -/
theorem c7_repo_uniqueness_preserved (op : RepoOp)
    (store store2 : List RepoRow)
    (hpk : pksNodup store) (hinv : repoInvariant store)
    (happ : applyRepoOp op store = some store2) :
    repoInvariant store2 ∧ pksNodup store2 := by
  cases op with
  | create pk owner isAdmin name initialTag official vis desc =>
    simp only [applyRepoOp] at happ
    split_ifs at happ with hc1 hc2 hc3 hc4 hc5 hc6 hc7 <;>
      first
      | exact Option.noConfusion happ
      | rw [Option.some.injEq] at happ
    subst happ
    apply create_preserves store _ hpk hinv
    · intro r hr he
      exact hc6 (List.any_eq_true.mpr ⟨r, hr, by simp [he]⟩)
    · intro r hr he
      exact hc7 (List.any_eq_true.mpr ⟨r, hr, by simp [he]⟩)
  | edit pk isAdmin official vis desc =>
    simp only [applyRepoOp] at happ
    cases hfind : findByPk store pk with
    | none =>
      rw [hfind] at happ
      simp at happ
    | some r0 =>
      rw [hfind] at happ
      simp only [] at happ
      split_ifs at happ with hc1 hc2 hc3 hc4 hc5 <;>
        first
        | exact Option.noConfusion happ
        | rw [Option.some.injEq] at happ
      subst happ
      have hfind2 : store.find? (fun r => r.pk == pk) = some r0 := hfind
      have hmem : r0 ∈ store := List.mem_of_find?_eq_some hfind2
      have hpk0 : r0.pk = pk := by
        have := List.find?_some hfind2
        simpa using this
      apply edit_preserves store r0 official vis desc pk hpk hinv hmem hpk0
      intro heo r hr hbad
      apply hc4
      rw [heo, Bool.true_and]
      exact List.any_eq_true.mpr ⟨r, hr, by simp [hbad.1, hbad.2.1, hbad.2.2]⟩

/-- Witness for C7: creating a first repository in an empty store. -/
theorem c7_witness :
    repoInvariant [RepoRow.mk 1 10 "myapp" false Visibility.pub ""] ∧
    pksNodup [RepoRow.mk 1 10 "myapp" false Visibility.pub ""] :=
  c7_repo_uniqueness_preserved
    (RepoOp.create 1 10 false "myapp" "latest" false Visibility.pub "")
    [] [RepoRow.mk 1 10 "myapp" false Visibility.pub ""]
    (by unfold pksNodup; simp) (by constructor <;> simp) (by decide)

end Repos
